import Mathlib

/-!
# Verification of the template/config composition engine of `build.py`

A shallow embedding of the pure core of `src/build.py` (the Discourse
application builder): template loading (`load_config`), variable
substitution (`substitute`), and the composition pass inside `main` that
turns an ordered list of YAML documents into the docker argument list and
the two persisted artifacts (`init` and `build`).

Strings are modelled by Lean `String` / `List Char`; Python `dict`
iteration is modelled by association lists in insertion order; the
external YAML parser is modelled by attaching each document's parse
result (`Except`) to the document; `sys.exit` / uncaught exceptions are
modelled by `Except`.
-/

namespace Build

/-- Python `sep.join(parts)`: parts interleaved with the separator
(`"".join([]) = ""`, `sep.join([x]) = x`). -/
def pyJoin (sep : String) : List String → String
  | [] => ""
  | [x] => x
  | x :: y :: rest => x ++ sep ++ pyJoin sep (y :: rest)

/-- `MAGIC_SEPARATOR` from `build.py` line 23, used by `pups` to
delineate files. -/
def MAGIC_SEPARATOR : String := "\n_FILE_SEPERATOR_\n"

/-- `BASE_IMAGE` from `build.py` line 13: the published base image. -/
def BASE_IMAGE : String := "discourse/base:2.0.20250715-0020"

/-- `CONTAINER_NAME` from `build.py` line 19. -/
def CONTAINER_NAME : String := "local_discourse"

/-! ## Variable substitution (`substitute`, `build.py` lines 68-87)

`re.sub(r'\$(\w+)', replacer, s)`: scan left to right; at a `$` followed
by one or more word characters, the greedy maximal run of word
characters is the identifier; the replacer substitutes `params[name]`
when the name is a key, otherwise keeps the token verbatim and prints a
warning.  Scanning resumes after the match, so replacement text is never
re-scanned.  Python's `\w` is modelled on the ASCII range
(`[A-Za-z0-9_]`). -/

/-- A word character in the sense of the regex `\w` (ASCII range). -/
def isWordChar (c : Char) : Bool := c.isAlphanum || c == '_'

/-- Association-list lookup modelling Python `dict` key lookup. -/
def lookupParam (params : List (String × String)) (k : String) : Option String :=
  match params with
  | [] => none
  | (k', v) :: rest => if k' == k then some v else lookupParam rest k

/-- The scanner underlying `substitute`, on `List Char`, written with a
skip counter so the recursion is structural on the text: in state
`(Nat.succ k, l)` the scanner is inside an already-emitted match and
discards `k + 1` characters; in state `(0, l)` it looks for the next
match.  Returns the substituted text together with the list of
warned-about missing token names (the model of the
`print("WARN: ...")` side effect), in scan order. -/
def substituteCoreAux (params : List (String × String)) :
    Nat → List Char → List Char × List String
  | _, [] => ([], [])
  | Nat.succ k, _ :: rest => substituteCoreAux params k rest
  | 0, c :: rest =>
    if c == '$' then
      let w := rest.takeWhile isWordChar
      if w.isEmpty then
        -- `\$(\w+)` does not match here: `$` is copied through.
        let (r, warns) := substituteCoreAux params 0 rest
        ('$' :: r, warns)
      else
        let name : String := ⟨w⟩
        -- the match consumed `w`; skip it and resume after it
        let (r, warns) := substituteCoreAux params w.length rest
        match lookupParam params name with
        | some v => (v.data ++ r, warns)
        | none => ('$' :: (w ++ r), name :: warns)
    else
      let (r, warns) := substituteCoreAux params 0 rest
      (c :: r, warns)

/-- The regex scan of `re.sub(r'\$(\w+)', replacer, s)` on the text's
characters. -/
def substituteCore (params : List (String × String)) (l : List Char) :
    List Char × List String :=
  substituteCoreAux params 0 l

/-- `substitute(params, s)` (`build.py` lines 68-87): the returned
string. -/
def substitute (params : List (String × String)) (s : String) : String :=
  ⟨(substituteCore params s.data).1⟩

/-- The warnings `substitute(params, s)` prints, in order; each entry is
the identifier of a `$token` that had no key in `params`. -/
def substituteWarnings (params : List (String × String)) (s : String) : List String :=
  (substituteCore params s.data).2

example : substitute [("foo", "bar")] "x $foo y" = "x bar y" := by decide
example : substitute [] "x $foo y" = "x $foo y" := by decide
example : substituteWarnings [] "x $foo y" = ["foo"] := by decide
example : substitute [("a", "$b"), ("b", "x")] "$a" = "$b" := by decide
example : substitute [("a", "1")] "$$a" = "$1" := by decide
example : substitute [("a", "1")] "$a$a!" = "11!" := by decide

/-! ## YAML values and documents

The composition loop in `main` (lines 136-189) reads typed sections out
of each parsed document.  A scalar value (used in `env`/`labels` values
and `expose` entries) is modelled with enough of Python's dynamic typing
to express truthiness (`v or ''`), `str()` coercion, and the fact that
`"=" in port` raises `TypeError` on a non-`str`. -/

inductive YVal where
  | str (s : String)
  | int (n : Int)
  | bool (b : Bool)
  | null
deriving DecidableEq, Repr

/-- Python truthiness of a scalar. -/
def YVal.truthy : YVal → Bool
  | .str s => s ≠ ""
  | .int n => n ≠ 0
  | .bool b => b
  | .null => false

/-- Python `str()` of a scalar. -/
def YVal.pyStr : YVal → String
  | .str s => s
  | .int n => toString n
  | .bool b => if b then "True" else "False"
  | .null => "None"

/-- `str(v or '')` from lines 158 and 163: a falsy value (in particular
`None`, i.e. a YAML null) becomes the empty string. -/
def coerceVal (v : YVal) : String := if v.truthy then v.pyStr else ""

/-- A `volumes` list entry's nested `volume` object (`host`/`guest`),
lines 174-181. -/
structure Volume where
  host : String
  guest : String
deriving DecidableEq, Repr

/-- A parsed YAML mapping as the composition loop consumes it: one
optional field per section name the loop tests with `"..." in yml`.
Absent key = `none`.  `params` values are taken as strings (the shape
`substitute` expects); `env`/`labels` are association lists in the
mapping's iteration (insertion) order. -/
structure YDoc where
  params : Option (List (String × String)) := none
  build : Option String := none
  build_hooks : Option String := none
  env : Option (List (String × YVal)) := none
  labels : Option (List (String × YVal)) := none
  expose : Option (List YVal) := none
  volumes : Option (List Volume) := none
  docker_args : Option (List String) := none
  base_image : Option String := none
deriving DecidableEq, Repr

/-- One element of `input_parts`: its raw text (what `load_config`
returned and what the `init` artifact stores) together with the result
of `yaml.safe_load` on it (line 137), supplied as data because the YAML
parser is external to the modelled core. -/
structure Part where
  raw : String
  parsed : Except String YDoc

/-- A Python runtime error that aborts the run (uncaught exception). -/
inductive PyErr where
  | yamlError (msg : String)
  | typeError
deriving DecidableEq, Repr

/-! ## Section handlers of the composition loop -/

/-- `dict.update` (line 139): later entries overwrite earlier keys,
keeping the original key's insertion position; new keys append. -/
def dictUpdate (d : List (String × String)) (upd : List (String × String)) : List (String × String) :=
  match upd with
  | [] => d
  | (k, v) :: rest =>
    if d.any (fun p => p.1 == k) then
      dictUpdate (d.map (fun p => if p.1 == k then (k, v) else p)) rest
    else
      dictUpdate (d ++ [(k, v)]) rest

/-- Python `str.replace(pat, repl)` on character lists, written with a
skip counter for structural recursion (`Nat.succ k` discards the rest
of an already-replaced occurrence): replace every non-overlapping
occurrence left to right; the replacement text is not re-scanned.  Only
called with the non-empty pattern `"{config}"`. -/
def replaceAllAux (pat repl : List Char) : Nat → List Char → List Char
  | _, [] => []
  | Nat.succ k, _ :: rest => replaceAllAux pat repl k rest
  | 0, c :: rest =>
    if ¬ pat.isEmpty ∧ pat.isPrefixOf (c :: rest) then
      -- the occurrence starts here: emit the replacement, consume `c`,
      -- and skip the remaining `pat.length - 1` occurrence characters
      repl ++ replaceAllAux pat repl (pat.length - 1) rest
    else
      c :: replaceAllAux pat repl 0 rest

/-- `str.replace` proper. -/
def replaceAll (pat repl l : List Char) : List Char :=
  replaceAllAux pat repl 0 l

/-- `v.replace("{config}", config_name)` (lines 158 and 163). -/
def substConfig (configName : String) (v : String) : String :=
  ⟨replaceAll "{config}".data configName.data v.data⟩

/-- `env` handling (lines 156-159): per entry, coerce, substitute
`{config}`, and extend the argument list with `-e k=v`. -/
def processEnv (configName : String) : List (String × YVal) → List String
  | [] => []
  | (k, v) :: rest =>
    "-e" :: (k ++ "=" ++ substConfig configName (coerceVal v)) :: processEnv configName rest

/-- `labels` handling (lines 161-164): same as `env` with flag `-l`. -/
def processLabels (configName : String) : List (String × YVal) → List String
  | [] => []
  | (k, v) :: rest =>
    "-l" :: (k ++ "=" ++ substConfig configName (coerceVal v)) :: processLabels configName rest

/-- `port.split("=", 1)`: the part before the first `'='` and the part
after it. -/
def splitEq (s : List Char) : List Char × List Char :=
  (s.takeWhile (fun c => c ≠ '='), (s.dropWhile (fun c => c ≠ '=')).drop 1)

/-- `expose` handling (lines 166-172).  `"=" in port` on a non-string
scalar raises `TypeError` (modelled by `.error .typeError`); a string
containing `'='` is split at the first `'='` into `host`/`container`
yielding `--expose host:container`, otherwise `-p port`. -/
def processExpose : List YVal → Except PyErr (List String)
  | [] => .ok []
  | .str port :: rest => do
    let tail ← processExpose rest
    if port.data.contains '=' then
      let host : String := ⟨(splitEq port.data).1⟩
      let container : String := ⟨(splitEq port.data).2⟩
      return "--expose" :: (host ++ ":" ++ container) :: tail
    else
      return "-p" :: port :: tail
  | _ :: _ => .error .typeError

/-- `volumes` handling (lines 174-181); `os.path.abspath` is external
and passed in as `abspath`. -/
def processVolumes (abspath : String → String) : List Volume → List String
  | [] => []
  | v :: rest =>
    let host := if v.host.startsWith "./" then abspath v.host else v.host
    "-v" :: (host ++ ":" ++ v.guest) :: processVolumes abspath rest

/-- The per-document `build`/`build_hooks` switcharoo (lines 143-154):
`build` is renamed to `run` and `build_hooks` to `hooks` in a copy of
the document, which is then serialized onto `build_parts`. -/
structure BuildPart where
  doc : YDoc
  run : Option String
  hooks : Option String
deriving DecidableEq, Repr

/-- The mutable accumulators of the composition loop (`dkrargs`,
`params`, `build_parts`, `base_image`; lines 114, 131-135). -/
structure ComposeState where
  params : List (String × String)
  buildParts : List BuildPart
  dkrargs : List String
  base_image : String
deriving DecidableEq, Repr

/-- The initial accumulator state (lines 114, 131-135). -/
def initState : ComposeState :=
  { params := [], buildParts := [], dkrargs := [], base_image := BASE_IMAGE }

/-- One iteration of the composition loop (lines 136-189) on an already
parsed document. -/
def stepDoc (abspath : String → String) (configName : String)
    (st : ComposeState) (yml : YDoc) : Except PyErr ComposeState := do
  let params := match yml.params with
    | some p => dictUpdate st.params p
    | none => st.params
  let buildParts :=
    if yml.build.isSome ∨ yml.build_hooks.isSome then
      st.buildParts ++ [{ doc := { yml with build := none, build_hooks := none },
                          run := yml.build, hooks := yml.build_hooks }]
    else
      st.buildParts
  let dkrargs := match yml.env with
    | some e => st.dkrargs ++ processEnv configName e
    | none => st.dkrargs
  let dkrargs := match yml.labels with
    | some l => dkrargs ++ processLabels configName l
    | none => dkrargs
  let dkrargs ← match yml.expose with
    | some ports => do pure (dkrargs ++ (← processExpose ports))
    | none => pure dkrargs
  let dkrargs := match yml.volumes with
    | some vs => dkrargs ++ processVolumes abspath vs
    | none => dkrargs
  let dkrargs := match yml.docker_args with
    | some as => dkrargs ++ as
    | none => dkrargs
  let base_image := match yml.base_image with
    | some b => b
    | none => st.base_image
  return { params := params, buildParts := buildParts,
           dkrargs := dkrargs, base_image := base_image }

/-- The composition loop over `input_parts` (lines 136-189): each part
is parsed (`yaml.safe_load`, line 137) — a parse failure is an uncaught
exception that aborts the run — and then folded through `stepDoc`. -/
def composeLoop (abspath : String → String) (configName : String)
    (st : ComposeState) : List Part → Except PyErr ComposeState
  | [] => .ok st
  | part :: rest => do
    match part.parsed with
    | .error msg => .error (.yamlError msg)
    | .ok yml => composeLoop abspath configName (← stepDoc abspath configName st yml) rest

/-- The persisted artifacts and final state of a successful composition
(lines 191-196): the `init` file holds the raw parts joined by
`MAGIC_SEPARATOR`; the `build` file holds the serialized `build_parts`
(serialization of a `BuildPart` is `yaml.dump`, external, so the model
keeps the list). -/
structure ComposeOut where
  state : ComposeState
  initContent : String
  buildParts : List BuildPart
deriving DecidableEq, Repr

/-- The whole composition pass of `main` for the artifact-producing
commands (`build`/`rebuild`/`start`/`start-cmd`): run the loop over all
parts, then — only then — produce both artifacts.  An error anywhere in
the loop aborts before either artifact exists. -/
def composeRun (abspath : String → String) (configName : String)
    (parts : List Part) : Except PyErr ComposeOut := do
  let st ← composeLoop abspath configName initState parts
  return { state := st,
           initContent := pyJoin MAGIC_SEPARATOR (parts.map Part.raw),
           buildParts := st.buildParts }

/-! ## Template loading (`load_config`, lines 25-66)

The filesystem is modelled as an association list from path to file
content; `os.path.exists` is `isSome` of the lookup and reading a file
that exists never fails in the model (the `except ... continue` on
line 55-57 is therefore not taken).  `os.path.join(root, t)` is
modelled as `root ++ "/" ++ t`. -/

/-- A filesystem: mapping from path to content. -/
def FS := List (String × String)

/-- File lookup; `isSome` plays `os.path.exists`. -/
def fsRead (fs : FS) (path : String) : Option String :=
  match fs with
  | [] => none
  | (p, c) :: rest => if p == path then some c else fsRead rest path

/-- `os.path.join(template_path, template)` for our POSIX-style paths. -/
def pathJoin (root t : String) : String := root ++ "/" ++ t

/-- The inner loop of `load_config` (lines 46-57): try each root in
order, returning the first existing `root/template`'s content. -/
def findTemplate (fs : FS) (roots : List String) (t : String) : Option String :=
  match roots with
  | [] => none
  | r :: rs =>
    match fsRead fs (pathJoin r t) with
    | some content => some content
    | none => findTemplate fs rs t

/-- The fatal diagnostic of line 60: names the missing template and the
full list of roots searched. -/
structure TemplateNotFound where
  template : String
  searched : List String
deriving DecidableEq, Repr

/-- The template loop of `load_config` (lines 42-61): resolve each
listed template in order, failing fatally on the first one no root
contains. -/
def loadTemplates (fs : FS) (roots : List String) :
    List String → Except TemplateNotFound (List String)
  | [] => .ok []
  | t :: ts =>
    match findTemplate fs roots t with
    | some content => do return content :: (← loadTemplates fs roots ts)
    | none => .error { template := t, searched := roots }

/-- The config file as `load_config` consumes it: its raw text
(`config_data`) and the `templates` list extracted from its parse
(line 36, default `[]`). -/
structure ConfigFile where
  raw : String
  templates : List String

/-- `load_config(config_file, template_paths)` (lines 25-66): the
returned `input_parts`, or the fatal template-not-found exit. -/
def load_config (fs : FS) (cfg : ConfigFile) (roots : List String) :
    Except TemplateNotFound (List String) := do
  return "hack: true" :: (← loadTemplates fs roots cfg.templates) ++ [cfg.raw]

/-! ## Container start (`main`, lines 117 and 204-211) -/

/-- Python `str.strip()`: leading and trailing whitespace removed. -/
def pyStrip (s : String) : String :=
  ⟨((s.data.dropWhile Char.isWhitespace).reverse.dropWhile Char.isWhitespace).reverse⟩

/-- Line 117: `cid = subprocess.check_output([...]).strip().decode()`.
`check_output` yields `bytes` (modelled as the `String` `psOut`), and
`.strip().decode()` yields a `str` — the `Option` codomain records the
Python-level possibility of `None`, which this expression never
produces. -/
def captureCid (psOut : String) : Option String := some (pyStrip psOut)

/-- Lines 204-209: whether the `docker run` call is reached.  For
`start` it always is; for `rebuild` the guard `cid is None` (line 206)
returns early; other commands never reach this branch. -/
def runsDockerRun (command : String) (cid : Option String) : Bool :=
  if command == "start" || command == "rebuild" then
    if command == "rebuild" && cid.isNone then false else true
  else false

/-- The argument list of the `docker run` invocation executed by `start`
and `rebuild` (line 209). -/
def startRunArgs (configName : String) (dkrargs : List String) : List String :=
  ["docker", "run", "--rm", "-d", "-i", "--name", configName] ++ dkrargs
    ++ [CONTAINER_NAME ++ "/" ++ configName]

/-- The argument list whose space-joined form `start-cmd` prints
(line 211). -/
def startCmdArgs (configName : String) (dkrargs : List String) : List String :=
  ["docker", "run", "--rm", "-i", "--name", configName] ++ dkrargs
    ++ [CONTAINER_NAME ++ "/" ++ configName]

/-- The exact text `start-cmd` prints (line 211). -/
def startCmdOutput (configName : String) (dkrargs : List String) : String :=
  pyJoin " " (startCmdArgs configName dkrargs)

/-! ## Derived definitions and concrete scenario documents -/

/-- The spec's wording of template resolution, stated independently of
the loop in `load_config`: the first root directory, in the given order,
containing a file at `root/templateName`, read there. -/
def firstRootMatch (fs : FS) (roots : List String) (t : String) : Option String :=
  (roots.find? (fun r => (fsRead fs (pathJoin r t)).isSome)).bind
    (fun r => fsRead fs (pathJoin r t))

/-- The flag pair a single string `expose` entry contributes
(lines 168-172). -/
def exposePair (port : String) : List String :=
  if port.data.contains '=' then
    ["--expose", (⟨(splitEq port.data).1⟩ : String) ++ ":" ++ (⟨(splitEq port.data).2⟩ : String)]
  else
    ["-p", port]

/-- The synthetic bootstrap document `load_config` puts first
(line 39): parses to a mapping with no recognized section. -/
def hackPart : Part := { raw := "hack: true", parsed := .ok {} }

/-- A template whose free text references `$foo` and whose `params`
section binds `foo`. -/
def fooPart : Part :=
  { raw := "params:\n  foo: bar\nrun: $foo",
    parsed := .ok { params := some [("foo", "bar")] } }

/-- A template whose free text references `$missing_var`, bound
nowhere. -/
def missPart : Part := { raw := "cmd: $missing_var", parsed := .ok {} }

/-- The `web.yml` template of the override scenario:
`env: {FOO: bar}`. -/
def webPart : Part :=
  { raw := "env:\n  FOO: bar", parsed := .ok { env := some [("FOO", YVal.str "bar")] } }

/-- The config of the override scenario: `templates: [web.yml]` and
`env: {FOO: baz}`. -/
def cfgPart : Part :=
  { raw := "templates:\n- web.yml\nenv:\n  FOO: baz",
    parsed := .ok { env := some [("FOO", YVal.str "baz")] } }

/-! ## General lemmas about the scanners and joins -/

theorem takeWhile_append_all {α} (p : α → Bool) (w rest : List α)
    (hw : ∀ c ∈ w, p c = true) (hrest : ∀ c, rest.head? = some c → p c = false) :
    (w ++ rest).takeWhile p = w := by
  induction w with
  | nil =>
    cases rest with
    | nil => rfl
    | cons r rs => simp [List.takeWhile_cons, hrest r rfl]
  | cons c cs ih =>
    simp only [List.cons_append, List.takeWhile_cons, hw c (by simp), if_true]
    rw [ih (fun x hx => hw x (by simp [hx]))]

theorem dropWhile_append_all {α} (p : α → Bool) (w rest : List α)
    (hw : ∀ c ∈ w, p c = true) (hrest : ∀ c, rest.head? = some c → p c = false) :
    (w ++ rest).dropWhile p = rest := by
  induction w with
  | nil =>
    cases rest with
    | nil => rfl
    | cons r rs => simp [List.dropWhile_cons, hrest r rfl]
  | cons c cs ih =>
    simp only [List.cons_append, List.dropWhile_cons, hw c (by simp), if_true]
    exact ih (fun x hx => hw x (by simp [hx]))

theorem substituteCoreAux_skip (params : List (String × String)) (k : Nat) (l : List Char) :
    substituteCoreAux params k l = substituteCoreAux params 0 (l.drop k) := by
  induction k generalizing l with
  | zero => simp
  | succ k ih =>
    cases l with
    | nil => simp [substituteCoreAux]
    | cons c rest => simp [substituteCoreAux, ih, List.drop_succ_cons]

theorem replaceAllAux_skip (pat repl : List Char) (k : Nat) (l : List Char) :
    replaceAllAux pat repl k l = replaceAllAux pat repl 0 (l.drop k) := by
  induction k generalizing l with
  | zero => simp
  | succ k ih =>
    cases l with
    | nil => simp [replaceAllAux]
    | cons c rest => simp [replaceAllAux, ih, List.drop_succ_cons]

theorem infix_pyJoin (sep : String) (parts : List String) (s : String) (h : s ∈ parts) :
    s.data <:+: (pyJoin sep parts).data := by
  induction parts with
  | nil => cases h
  | cons x rest ih =>
    cases rest with
    | nil =>
      simp only [List.mem_singleton] at h
      subst h
      exact List.infix_refl _
    | cons y ys =>
      rcases List.mem_cons.mp h with rfl | hmem
      · show s.data <:+: ((s ++ sep) ++ pyJoin sep (y :: ys)).data
        simp only [String.data_append, List.append_assoc]
        exact (List.prefix_append _ _).isInfix
      · show s.data <:+: ((x ++ sep) ++ pyJoin sep (y :: ys)).data
        simp only [String.data_append]
        exact (ih hmem).trans (List.suffix_append _ _).isInfix

theorem coerceVal_str (s : String) : coerceVal (.str s) = s := by
  by_cases h : s = "" <;> simp [coerceVal, YVal.truthy, YVal.pyStr, h]

theorem composeRun_ok_initContent (abspath : String → String) (cfgName : String)
    (parts : List Part) (out : ComposeOut)
    (h : composeRun abspath cfgName parts = .ok out) :
    out.initContent = pyJoin MAGIC_SEPARATOR (parts.map Part.raw) := by
  unfold composeRun at h
  cases hl : composeLoop abspath cfgName initState parts with
  | error e => rw [hl] at h; simp [Bind.bind, Except.bind] at h
  | ok st =>
    rw [hl] at h
    simp only [Bind.bind, Except.bind, pure, Except.pure, Except.ok.injEq] at h
    rw [← h]

theorem composeLoop_ok_parsed (abspath : String → String) (cfgName : String)
    (parts : List Part) :
    ∀ st stOut, composeLoop abspath cfgName st parts = .ok stOut →
      ∀ p ∈ parts, ∃ yml, p.parsed = .ok yml := by
  induction parts with
  | nil => intro st stOut h p hp; cases hp
  | cons q rest ih =>
    intro st stOut h p hp
    simp only [composeLoop] at h
    cases hq : q.parsed with
    | error msg => rw [hq] at h; cases h
    | ok yml =>
      rw [hq] at h
      simp only [Bind.bind, Except.bind] at h
      cases hs : stepDoc abspath cfgName st yml with
      | error e => rw [hs] at h; simp at h
      | ok st' =>
        rw [hs] at h
        rcases List.mem_cons.mp hp with rfl | hmem
        · exact ⟨yml, hq⟩
        · exact ih st' stOut h p hmem

theorem findTemplate_eq_firstRootMatch (fs : FS) (t : String) :
    ∀ roots, findTemplate fs roots t = firstRootMatch fs roots t := by
  intro roots
  induction roots with
  | nil => rfl
  | cons r rs ih =>
    cases hr : fsRead fs (pathJoin r t) with
    | some c => simp [findTemplate, firstRootMatch, List.find?_cons, hr]
    | none =>
      simp only [findTemplate, firstRootMatch, List.find?_cons, hr, Option.isSome_none,
        Bool.false_eq_true, if_false] at ih ⊢
      exact ih

theorem findTemplate_none_iff (fs : FS) (t : String) :
    ∀ roots, findTemplate fs roots t = none ↔ ∀ r ∈ roots, fsRead fs (pathJoin r t) = none := by
  intro roots
  induction roots with
  | nil => simp [findTemplate]
  | cons r rs ih =>
    cases hr : fsRead fs (pathJoin r t) with
    | some c => simp [findTemplate, hr]
    | none => simp [findTemplate, hr, ih]

theorem forall₂_mem_left {α β : Type} {R : α → β → Prop} :
    ∀ {ts : List α} {cs : List β}, List.Forall₂ R ts cs → ∀ t ∈ ts, ∃ c, R t c := by
  intro ts cs h
  induction h with
  | nil => intro t ht; cases ht
  | cons hr _ ih =>
    intro t ht
    rcases List.mem_cons.mp ht with rfl | hmem
    · exact ⟨_, hr⟩
    · exact ih t hmem

theorem loadTemplates_ok (fs : FS) (roots : List String) :
    ∀ ts cs, loadTemplates fs roots ts = .ok cs →
      List.Forall₂ (fun t c => findTemplate fs roots t = some c) ts cs := by
  intro ts
  induction ts with
  | nil =>
    intro cs h
    simp only [loadTemplates, Except.ok.injEq] at h
    rw [← h]
    exact .nil
  | cons t ts ih =>
    intro cs h
    simp only [loadTemplates] at h
    cases hf : findTemplate fs roots t with
    | none => rw [hf] at h; cases h
    | some c =>
      rw [hf] at h
      simp only [Bind.bind, Except.bind] at h
      cases hrest : loadTemplates fs roots ts with
      | error e => rw [hrest] at h; cases h
      | ok cs' =>
        rw [hrest] at h
        simp only [pure, Except.pure, Except.ok.injEq] at h
        rw [← h]
        exact .cons hf (ih cs' hrest)

theorem loadTemplates_error (fs : FS) (roots : List String) :
    ∀ ts e, loadTemplates fs roots ts = .error e →
      e.template ∈ ts ∧ findTemplate fs roots e.template = none ∧ e.searched = roots := by
  intro ts
  induction ts with
  | nil => intro e h; cases h
  | cons t ts ih =>
    intro e h
    simp only [loadTemplates] at h
    cases hf : findTemplate fs roots t with
    | none =>
      rw [hf] at h
      simp only [Except.error.injEq] at h
      rw [← h]
      exact ⟨List.Mem.head _, hf, rfl⟩
    | some c =>
      rw [hf] at h
      simp only [Bind.bind, Except.bind] at h
      cases hrest : loadTemplates fs roots ts with
      | error e' =>
        rw [hrest] at h
        simp only [Except.error.injEq] at h
        obtain ⟨hmem, hnone, hsearch⟩ := ih e' hrest
        rw [← h]
        exact ⟨List.Mem.tail _ hmem, hnone, hsearch⟩
      | ok cs' =>
        rw [hrest] at h
        simp only [pure, Except.pure] at h
        cases h

theorem replaceAll_nil (pat repl : List Char) : replaceAll pat repl [] = [] := rfl

theorem replaceAll_cons_not_prefix (pat repl : List Char) (c : Char) (l : List Char)
    (h : pat.isPrefixOf (c :: l) = false) :
    replaceAll pat repl (c :: l) = c :: replaceAll pat repl l := by
  simp [replaceAll, replaceAllAux, h]

theorem replaceAll_matched (p : Char) (ps repl b : List Char) :
    replaceAll (p :: ps) repl ((p :: ps) ++ b) = repl ++ replaceAll (p :: ps) repl b := by
  have hpre : (p :: ps).isPrefixOf (p :: (ps ++ b)) = true := by
    rw [List.isPrefixOf_iff_prefix]
    exact List.prefix_append (p :: ps) b
  simp only [replaceAll, replaceAllAux, List.cons_append, List.append_eq, hpre,
    List.isEmpty_cons, Bool.false_eq_true, not_false_iff, true_and, if_true,
    List.length_cons, Nat.succ_sub_one]
  rw [replaceAllAux_skip, List.drop_left]

theorem replaceAll_append_clean (p : Char) (ps repl a b : List Char)
    (ha : ∀ c ∈ a, c ≠ p) :
    replaceAll (p :: ps) repl (a ++ b) = a ++ replaceAll (p :: ps) repl b := by
  induction a with
  | nil => simp
  | cons c cs ih =>
    have hcp : (p == c) = false := beq_eq_false_iff_ne.mpr (Ne.symm (ha c (List.Mem.head _)))
    have hne : (p :: ps).isPrefixOf (c :: (cs ++ b)) = false := by
      simp [List.isPrefixOf, hcp]
    rw [List.cons_append, replaceAll_cons_not_prefix _ _ _ _ hne,
      ih (fun x hx => ha x (List.Mem.tail _ hx))]
    rfl

theorem processEnv_eq_flatMap (cfgName : String) (entries : List (String × YVal)) :
    processEnv cfgName entries
      = entries.flatMap (fun e => ["-e", e.1 ++ "=" ++ substConfig cfgName (coerceVal e.2)]) := by
  induction entries with
  | nil => rfl
  | cons e rest ih => simp [processEnv, ih]

theorem processLabels_eq_flatMap (cfgName : String) (entries : List (String × YVal)) :
    processLabels cfgName entries
      = entries.flatMap (fun e => ["-l", e.1 ++ "=" ++ substConfig cfgName (coerceVal e.2)]) := by
  induction entries with
  | nil => rfl
  | cons e rest ih => simp [processLabels, ih]

theorem processExpose_all_str (ports : List String) :
    processExpose (ports.map YVal.str) = .ok (ports.flatMap exposePair) := by
  induction ports with
  | nil => rfl
  | cons q rest ih =>
    simp only [List.map_cons, processExpose, ih, Bind.bind, Except.bind, List.flatMap_cons,
      exposePair, Pure.pure, Except.pure]
    by_cases hc : '=' ∈ q.data <;> simp [hc, List.contains]

theorem splitEq_at_first (host cont : List Char) (hh : '=' ∉ host) :
    splitEq (host ++ '=' :: cont) = (host, cont) := by
  have hw : ∀ x ∈ host, (fun c => decide (c ≠ '=')) x = true := by
    intro x hx
    simp only [decide_eq_true_eq]
    intro hEq
    exact hh (hEq ▸ hx)
  have hr : ∀ x, ('=' :: cont).head? = some x → (fun c => decide (c ≠ '=')) x = false := by
    intro x hx
    simp only [List.head?_cons, Option.some.injEq] at hx
    subst hx
    simp
  unfold splitEq
  rw [takeWhile_append_all _ host ('=' :: cont) hw hr,
      dropWhile_append_all _ host ('=' :: cont) hw hr]
  rfl

theorem substituteCore_token (params : List (String × String)) (w rest : List Char)
    (hw : w ≠ []) (hword : ∀ x ∈ w, isWordChar x = true)
    (hrest : ∀ x, rest.head? = some x → isWordChar x = false) :
    substituteCore params ('$' :: (w ++ rest))
      = match lookupParam params ⟨w⟩ with
        | some v => (v.data ++ (substituteCore params rest).1, (substituteCore params rest).2)
        | none => ('$' :: (w ++ (substituteCore params rest).1),
                   String.mk w :: (substituteCore params rest).2) := by
  obtain ⟨x, xs, rfl⟩ := List.exists_cons_of_ne_nil hw
  have htake : ((x :: xs) ++ rest).takeWhile isWordChar = x :: xs :=
    takeWhile_append_all _ _ rest hword hrest
  have hskip : substituteCoreAux params (x :: xs).length ((x :: xs) ++ rest)
      = substituteCoreAux params 0 rest := by
    rw [substituteCoreAux_skip, List.drop_left]
  simp only [substituteCore, substituteCoreAux, htake, hskip, List.isEmpty_cons,
    beq_self_eq_true, if_true]
  cases hlook : lookupParam params ⟨x :: xs⟩ <;> simp [hlook]

theorem substituteCore_cons_other (params : List (String × String)) (c : Char) (rest : List Char)
    (hc : c ≠ '$') :
    substituteCore params (c :: rest)
      = (c :: (substituteCore params rest).1, (substituteCore params rest).2) := by
  have hbeq : (c == '$') = false := beq_eq_false_iff_ne.mpr hc
  simp [substituteCore, substituteCoreAux, hbeq]

theorem substituteCore_lone_dollar (params : List (String × String)) (rest : List Char)
    (hrest : ∀ x, rest.head? = some x → isWordChar x = false) :
    substituteCore params ('$' :: rest)
      = ('$' :: (substituteCore params rest).1, (substituteCore params rest).2) := by
  have htake : rest.takeWhile isWordChar = [] := by
    cases rest with
    | nil => rfl
    | cons r rs => simp [List.takeWhile_cons, hrest r rfl]
  simp [substituteCore, substituteCoreAux, htake]

/-! ## Claims -/

/-- C6: the `substitute` scanner processes each `$identifier` token
(identifier = a maximal nonempty run of word characters): when the
identifier is a key of the ParameterSet the token is replaced by the
mapped value and scanning resumes after the token — the replacement
value is spliced verbatim, never re-scanned (single-pass) — when it is
no key the token stays unchanged and one warning naming the identifier
is recorded; non-token characters (including a `$` not followed by a
word character) are copied through; concretely, with
`a ↦ $b, b ↦ x` the input `$a` becomes `$b`, not `x`. -/
theorem substitute_spec (params : List (String × String)) (w rest : List Char) (c : Char)
    (hw : w ≠ []) (hword : ∀ x ∈ w, isWordChar x = true)
    (hrest : ∀ x, rest.head? = some x → isWordChar x = false)
    (hc : c ≠ '$') :
    (∀ v, lookupParam params ⟨w⟩ = some v →
        substituteCore params ('$' :: (w ++ rest))
          = (v.data ++ (substituteCore params rest).1, (substituteCore params rest).2))
    ∧ (lookupParam params ⟨w⟩ = none →
        substituteCore params ('$' :: (w ++ rest))
          = ('$' :: (w ++ (substituteCore params rest).1),
             String.mk w :: (substituteCore params rest).2))
    ∧ substituteCore params (c :: rest)
        = (c :: (substituteCore params rest).1, (substituteCore params rest).2)
    ∧ substituteCore params ('$' :: rest)
        = ('$' :: (substituteCore params rest).1, (substituteCore params rest).2)
    ∧ substitute [("a", "$b"), ("b", "x")] "$a" = "$b" := by
  refine ⟨?_, ?_, substituteCore_cons_other params c rest hc,
    substituteCore_lone_dollar params rest hrest, by decide⟩
  · intro v hv
    rw [substituteCore_token params w rest hw hword hrest, hv]
  · intro hv
    rw [substituteCore_token params w rest hw hword hrest, hv]

/-- C6 witness: the token `$foo` with `foo ↦ bar` in front of the
non-word tail `" x"` is replaced by `bar`. -/
theorem substitute_spec_witness :
    lookupParam [("foo", "bar")] "foo" = some "bar"
    ∧ substituteCore [("foo", "bar")] ('$' :: (("foo" : String).data ++ (" x" : String).data))
        = ("bar".data ++ (substituteCore [("foo", "bar")] (" x" : String).data).1,
           (substituteCore [("foo", "bar")] (" x" : String).data).2) :=
  ⟨by decide,
   (substitute_spec [("foo", "bar")] ("foo" : String).data (" x" : String).data 'q'
      (by decide) (by decide)
      (by
        intro x hx
        simp only [show (" x" : String).data.head? = some ' ' from rfl,
          Option.some.injEq] at hx
        subst hx
        decide)
      (by decide)).1 "bar" (by decide)⟩

/-- C7: `env` and `labels` entries each yield one appended flag pair
(`-e k=v` resp. `-l k=v`) in the mapping's iteration order, where the
value is coerced (null becomes the empty string) and then every literal
occurrence of `{config}` in it is replaced once by the config base
name: an occurrence after clean text `a` becomes `a ++ cfgName`, with
scanning resuming after the replacement, and a value with no `{` is
unchanged. -/
theorem env_labels_spec (cfgName : String) (entries : List (String × YVal))
    (k : String) (a b : List Char)
    (ha : ∀ c ∈ a, c ≠ '\x7b') :
    processEnv cfgName entries
        = entries.flatMap (fun e => ["-e", e.1 ++ "=" ++ substConfig cfgName (coerceVal e.2)])
    ∧ processLabels cfgName entries
        = entries.flatMap (fun e => ["-l", e.1 ++ "=" ++ substConfig cfgName (coerceVal e.2)])
    ∧ coerceVal YVal.null = ""
    ∧ processEnv cfgName [(k, YVal.null)] = ["-e", k ++ "="]
    ∧ substConfig cfgName ⟨a ++ ("{config}".data ++ b)⟩
        = ⟨a ++ (cfgName.data ++ replaceAll "{config}".data cfgName.data b)⟩
    ∧ substConfig cfgName ⟨a⟩ = ⟨a⟩ := by
  refine ⟨processEnv_eq_flatMap cfgName entries, processLabels_eq_flatMap cfgName entries,
    rfl, ?_, ?_, ?_⟩
  · show ["-e", k ++ "=" ++ substConfig cfgName (coerceVal YVal.null)] = ["-e", k ++ "="]
    simp [substConfig, coerceVal, YVal.truthy, replaceAll, replaceAllAux]
  · show (⟨replaceAll "{config}".data cfgName.data (a ++ ("{config}".data ++ b))⟩ : String) = _
    have h1 : "{config}".data = '\x7b' :: "config\x7d".data := rfl
    rw [h1, replaceAll_append_clean _ _ _ _ _ ha, replaceAll_matched]
  · show (⟨replaceAll "{config}".data cfgName.data a⟩ : String) = (⟨a⟩ : String)
    have h1 : "{config}".data = '\x7b' :: "config\x7d".data := rfl
    have h2 := replaceAll_append_clean '\x7b' "config\x7d".data cfgName.data a [] ha
    simp only [List.append_nil, replaceAll_nil] at h2
    rw [h1, h2]

/-- C7 witness: the single-occurrence replacement applied to the value
`pre: {config} post` with config name `app`. -/
theorem env_labels_spec_witness :
    (∀ c ∈ ("pre: " : String).data, c ≠ '\x7b')
    ∧ substConfig "app" ⟨("pre: " : String).data ++ ("{config}".data ++ (" post" : String).data)⟩
        = ⟨("pre: " : String).data
            ++ ("app".data ++ replaceAll "{config}".data "app".data (" post" : String).data)⟩ :=
  ⟨by decide,
   (env_labels_spec "app" [] "K" ("pre: " : String).data (" post" : String).data
      (by decide)).2.2.2.2.1⟩

/-- C8: every `expose` entry contributes its pair in list order; an
entry of the shape `host=cont` with no `=` in `host` (so the split is
at the first `=`) yields the pair `--expose host:cont`, and an entry
without `=` yields the pair `-p port`. -/
theorem expose_spec (ports : List String) (host cont port : String)
    (hh : '=' ∉ host.data) (hp : '=' ∉ port.data) :
    processExpose (ports.map YVal.str) = .ok (ports.flatMap exposePair)
    ∧ processExpose [YVal.str ⟨host.data ++ '=' :: cont.data⟩]
        = .ok ["--expose", host ++ ":" ++ cont]
    ∧ processExpose [YVal.str port] = .ok ["-p", port] := by
  refine ⟨processExpose_all_str ports, ?_, ?_⟩
  · have hc : '=' ∈ host.data ++ '=' :: cont.data := List.mem_append_right _ (List.Mem.head _)
    simp only [processExpose, Bind.bind, Except.bind, Pure.pure, Except.pure]
    rw [show ((⟨host.data ++ '=' :: cont.data⟩ : String).data.contains '=') = true from by
      simp [List.contains]]
    simp only [if_true]
    rw [show splitEq (⟨host.data ++ '=' :: cont.data⟩ : String).data = (host.data, cont.data) from
      splitEq_at_first host.data cont.data hh]
  · simp only [processExpose, Bind.bind, Except.bind, Pure.pure, Except.pure]
    rw [show (port.data.contains '=') = false from by simpa [List.contains] using hp]
    simp

/-- C8 witness: `8080=80` yields `--expose 8080:80`; `3000` yields
`-p 3000`. -/
theorem expose_spec_witness :
    processExpose [YVal.str ⟨("8080" : String).data ++ '=' :: ("80" : String).data⟩]
        = .ok ["--expose", "8080" ++ ":" ++ "80"]
    ∧ processExpose [YVal.str "3000"] = .ok ["-p", "3000"] :=
  ⟨(expose_spec [] "8080" "80" "3000" (by decide) (by decide)).2.1,
   (expose_spec [] "8080" "80" "3000" (by decide) (by decide)).2.2⟩

/-- C5: for every filesystem, config file and ordered list of template
search roots, a successful load yields exactly the synthetic bootstrap
fragment `hack: true`, then one fragment per listed template in order,
each read from the first root (in the given order) containing a file at
`root/templateName`, then the raw config content last; and when some
listed template exists in no root, the run fails fatally with a
diagnostic carrying that template's name and the full root list. -/
theorem load_config_spec (fs : FS) (cfg : ConfigFile) (roots : List String) :
    (∀ parts, load_config fs cfg roots = .ok parts →
      ∃ contents, parts = "hack: true" :: (contents ++ [cfg.raw])
        ∧ List.Forall₂ (fun t c => firstRootMatch fs roots t = some c) cfg.templates contents)
    ∧ (∀ e, load_config fs cfg roots = .error e →
      e.template ∈ cfg.templates ∧ e.searched = roots
        ∧ ∀ r ∈ roots, fsRead fs (pathJoin r e.template) = none)
    ∧ ((∃ t ∈ cfg.templates, firstRootMatch fs roots t = none) →
      ∃ e, load_config fs cfg roots = .error e) := by
  refine ⟨?_, ?_, ?_⟩
  · intro parts h
    unfold load_config at h
    cases hl : loadTemplates fs roots cfg.templates with
    | error e => rw [hl] at h; cases h
    | ok cs =>
      rw [hl] at h
      simp only [Bind.bind, Except.bind, pure, Except.pure, Except.ok.injEq] at h
      refine ⟨cs, h.symm, ?_⟩
      have := loadTemplates_ok fs roots cfg.templates cs hl
      exact this.imp (fun {t c} hr => by rw [← findTemplate_eq_firstRootMatch]; exact hr)
  · intro e h
    unfold load_config at h
    cases hl : loadTemplates fs roots cfg.templates with
    | error e' =>
      rw [hl] at h
      simp only [Bind.bind, Except.bind, Except.error.injEq] at h
      obtain ⟨hmem, hnone, hsearch⟩ := loadTemplates_error fs roots cfg.templates e' hl
      rw [← h]
      exact ⟨hmem, hsearch, (findTemplate_none_iff fs e'.template roots).mp hnone⟩
    | ok cs =>
      rw [hl] at h
      simp only [Bind.bind, Except.bind, pure, Except.pure] at h
      cases h
  · rintro ⟨t, hmem, hnone⟩
    cases hl : load_config fs cfg roots with
    | error e => exact ⟨e, rfl⟩
    | ok parts =>
      unfold load_config at hl
      cases hl2 : loadTemplates fs roots cfg.templates with
      | error e => rw [hl2] at hl; cases hl
      | ok cs =>
        have h2 := loadTemplates_ok fs roots cfg.templates cs hl2
        obtain ⟨c, hc⟩ := forall₂_mem_left h2 t hmem
        rw [findTemplate_eq_firstRootMatch] at hc
        rw [hnone] at hc
        cases hc

example :
    load_config [("./discourse_docker/web.yml", "WEB")] { raw := "CFG", templates := ["web.yml"] }
        [".", "./discourse_docker"]
      = .ok ["hack: true", "WEB", "CFG"] := rfl


/-- C9: composition is atomic with respect to YAML parse failures: the
artifact pair (the `init` content and the `build` parts, fields of the
`.ok` payload) is produced only when every document in the ordered
sequence parsed successfully, and if any document fails to parse the
whole run aborts with an error and neither artifact is produced. -/
theorem compose_atomicity (abspath : String → String) (cfgName : String) (parts : List Part) :
    (∀ out, composeRun abspath cfgName parts = .ok out →
      ∀ p ∈ parts, ∃ yml, p.parsed = .ok yml)
    ∧ ((∃ p ∈ parts, ∃ msg, p.parsed = .error msg) →
      ∃ e, composeRun abspath cfgName parts = .error e) := by
  have key : ∀ out, composeRun abspath cfgName parts = .ok out →
      ∀ p ∈ parts, ∃ yml, p.parsed = .ok yml := by
    intro out h p hp
    unfold composeRun at h
    cases hl : composeLoop abspath cfgName initState parts with
    | error e => rw [hl] at h; simp [Bind.bind, Except.bind] at h
    | ok st => exact composeLoop_ok_parsed abspath cfgName parts initState st hl p hp
  refine ⟨key, ?_⟩
  rintro ⟨p, hp, msg, hmsg⟩
  cases hr : composeRun abspath cfgName parts with
  | ok out =>
    obtain ⟨yml, hyml⟩ := key out hr p hp
    rw [hmsg] at hyml
    cases hyml
  | error e => exact ⟨e, rfl⟩

/-- C10: the `expose` step is total exactly on string entries: under
the precondition that every entry is a string scalar, processing
succeeds; a non-string entry such as the integer `80` makes the
membership test `"=" in port` raise `TypeError`, and a run whose
document carries `expose: [80]` aborts with that error. -/
theorem expose_requires_strings (entries : List YVal)
    (h : ∀ v ∈ entries, ∃ s, v = YVal.str s) :
    (∃ args, processExpose entries = .ok args)
    ∧ processExpose [YVal.int 80] = .error .typeError
    ∧ ∀ (abspath : String → String) (cfgName raw : String),
        composeRun abspath cfgName [⟨raw, .ok { expose := some [YVal.int 80] }⟩]
          = .error PyErr.typeError := by
  refine ⟨?_, rfl, ?_⟩
  · induction entries with
    | nil => exact ⟨[], rfl⟩
    | cons v rest ih =>
      obtain ⟨s, rfl⟩ := h v (List.Mem.head _)
      obtain ⟨args, hargs⟩ := ih (fun x hx => h x (List.Mem.tail _ hx))
      by_cases hc : '=' ∈ s.data
      · refine ⟨"--expose" :: ((⟨(splitEq s.data).1⟩ : String) ++ ":" ++ (⟨(splitEq s.data).2⟩ : String)) :: args, ?_⟩
        simp [processExpose, hargs, Bind.bind, Except.bind, Pure.pure, Except.pure, hc]
      · refine ⟨"-p" :: s :: args, ?_⟩
        simp [processExpose, hargs, Bind.bind, Except.bind, Pure.pure, Except.pure, hc]
  · intro abspath cfgName raw
    rfl

/-- C10 witness: a two-entry all-string `expose` list processes
successfully, while `expose: [80]` aborts the run with `TypeError`. -/
theorem expose_requires_strings_witness :
    (∃ args, processExpose [YVal.str "80", YVal.str "8080=80"] = .ok args)
    ∧ processExpose [YVal.int 80] = .error .typeError
    ∧ ∀ (abspath : String → String) (cfgName raw : String),
        composeRun abspath cfgName [⟨raw, .ok { expose := some [YVal.int 80] }⟩]
          = .error PyErr.typeError :=
  expose_requires_strings [YVal.str "80", YVal.str "8080=80"] (by
    intro v hv
    rcases List.mem_cons.mp hv with rfl | hv
    · exact ⟨"80", rfl⟩
    rcases List.mem_cons.mp hv with rfl | hv
    · exact ⟨"8080=80", rfl⟩
    cases hv)

/-- C1 counterexample: composing the bootstrap document with a template
whose `params` section binds `foo` and whose free text references
`$foo` yields an `init` artifact in which `$foo` is still literal, even
though `foo` is a key of the fully-accumulated ParameterSet — while
processing that text with `substitute` and the accumulated set would
have replaced it by `bar`.  Tokens matching a ParameterSet key are NOT
replaced before the output is produced: `substitute` is never invoked
during composition. -/
theorem substitution_never_applied_counterexample :
    (composeRun id "app" [hackPart, fooPart]).map (fun o => (o.state.params, o.initContent))
      = .ok ([("foo", "bar")], "hack: true\n_FILE_SEPERATOR_\nparams:\n  foo: bar\nrun: $foo")
    ∧ substitute [("foo", "bar")] "hack: true\n_FILE_SEPERATOR_\nparams:\n  foo: bar\nrun: $foo"
      = "hack: true\n_FILE_SEPERATOR_\nparams:\n  foo: bar\nrun: bar" :=
  ⟨rfl, by decide⟩

/-- C1 (amended): during composition no `$token` in any document's raw
text is processed at all — `substitute` is never applied, so every
document's raw text (any `$token`s included, matching a ParameterSet
key or not) appears verbatim in the `init` output, and no warning is
emitted; in particular composing a template that references
`$missing_var` succeeds and preserves the literal token. -/
theorem composition_preserves_raw_verbatim (abspath : String → String)
    (cfgName : String) (parts : List Part) (out : ComposeOut) (p : Part)
    (hok : composeRun abspath cfgName parts = .ok out) (hp : p ∈ parts) :
    p.raw.data <:+: out.initContent.data := by
  rw [composeRun_ok_initContent abspath cfgName parts out hok]
  exact infix_pyJoin _ _ _ (List.mem_map_of_mem Part.raw hp)

/-- C1 witness: the `$missing_var` scenario run through the composition
pass — the literal token is preserved in the produced `init` text. -/
theorem composition_preserves_raw_verbatim_witness :
    ("cmd: $missing_var" : String).data
      <:+: ("hack: true\n_FILE_SEPERATOR_\ncmd: $missing_var" : String).data := by
  have h := composition_preserves_raw_verbatim id "app" [hackPart, missPart]
      { state := { params := [], buildParts := [], dkrargs := [], base_image := BASE_IMAGE },
        initContent := "hack: true\n_FILE_SEPERATOR_\ncmd: $missing_var", buildParts := [] }
      missPart rfl (List.Mem.tail _ (List.Mem.head _))
  simpa [missPart] using h

/-- C2 counterexample: in the override scenario (`web.yml` declares
`env: {FOO: bar}`, the config declares `env: {FOO: baz}`), the
RuntimeSpecification is `["-e", "FOO=bar", "-e", "FOO=baz"]` — the
template's pair `-e FOO=bar` IS contained, refuting "does not contain
the pair `-e FOO=bar`"; nothing is deduplicated. -/
theorem env_override_counterexample :
    (composeRun id "app" [hackPart, webPart, cfgPart]).map (fun o => o.state.dkrargs)
      = .ok ["-e", "FOO=bar", "-e", "FOO=baz"] := rfl

/-- C2 (amended): for any key declared with one value in a template and
another in the config, the RuntimeSpecification contains both flag
pairs, the template's first and the config's last — the config
overrides only in the engine's last-value-wins sense, not by removing
the template's pair. -/
theorem env_override_config_last (abspath : String → String)
    (cfgName rawH rawT rawC k tv cv : String) :
    (composeRun abspath cfgName
        [⟨rawH, .ok {}⟩,
         ⟨rawT, .ok { env := some [(k, .str tv)] }⟩,
         ⟨rawC, .ok { env := some [(k, .str cv)] }⟩]).map (fun o => o.state.dkrargs)
      = .ok ["-e", k ++ "=" ++ substConfig cfgName tv,
             "-e", k ++ "=" ++ substConfig cfgName cv] := by
  simp [composeRun, composeLoop, stepDoc, processEnv, coerceVal_str, initState, Except.map]

/-- C3 counterexample: with config name `app` and no accumulated docker
arguments, the argument list `start-cmd` prints differs from the one
`start` executes — the executed one carries the detach flag `-d`, the
printed one does not.  This refutes "the same `docker run` argument
list ... with printing replacing execution as the only difference". -/
theorem startCmdArgs_ne_startRunArgs :
    startCmdArgs "app" [] ≠ startRunArgs "app" []
      ∧ "-d" ∈ startRunArgs "app" []
      ∧ "-d" ∉ startCmdArgs "app" [] := by
  decide

/-- C3 (amended): for every config name and accumulated argument list,
the invocation printed by `start-cmd` is the invocation executed by
`start` with the detach flag `-d` (the fourth element) removed;
everything else — flags, RuntimeSpecification pairs, container name and
image tag — coincides. -/
theorem startRunArgs_eq_insert_detach (configName : String) (dkrargs : List String) :
    startRunArgs configName dkrargs
      = (startCmdArgs configName dkrargs).take 3
          ++ "-d" :: (startCmdArgs configName dkrargs).drop 3 := by
  simp [startRunArgs, startCmdArgs]

/-- C4: the captured container id is always a (possibly empty) string
and never `None`, so the `rebuild` restart guard `cid is None` on
line 206 never fires: after the `rebuild` build step, the `docker run`
call is always reached, whatever `docker ps` printed. -/
theorem rebuild_always_starts (psOut : String) :
    captureCid psOut ≠ none
      ∧ runsDockerRun "rebuild" (captureCid psOut) = true := by
  constructor
  · intro h
    cases h
  · rfl

end Build
